import Mathlib

/-!
Verification development for the dynamo log generator (src/src/main.rs).

The program wires five rate-limited producer tasks of JSON log records into
a single bounded channel, batches the records by count and by time, and
POSTs each batch to a collector.  The definitions below are a shallow
embedding of the functions of `main.rs` (and, where the deciding code lives
in an external crate, a model written from the specification, marked as
such); the theorems settle the specification's claims about them.
-/

namespace Dynamo

/-- JSON values as manipulated by the program (`serde_json::Value`).
Objects are association lists of field name to value; the program never
relies on field order, and its numbers are integers (epoch timestamps,
counters), so `Int` suffices for the numeric case. -/
inductive Json where
  | null : Json
  | bool (b : Bool) : Json
  | num (n : Int) : Json
  | str (s : String) : Json
  | arr (xs : List Json) : Json
  | obj (fields : List (String × Json)) : Json

/-- Field lookup in a JSON object's association list
(`serde_json::Map::get`). -/
def lookupKey (k : String) : List (String × Json) → Option Json
  | [] => none
  | (k', v) :: rest => if k' = k then some v else lookupKey k rest

/-- Field removal (`serde_json::Map::remove`). -/
def removeKey (k : String) : List (String × Json) → List (String × Json)
  | [] => []
  | (k', v) :: rest => if k' = k then removeKey k rest else (k', v) :: removeKey k rest

/-- Field update-or-insert (`serde_json::Map::entry(k)` followed by
assignment): replaces the value at `k` when present, appends otherwise. -/
def setKey (k : String) (v : Json) : List (String × Json) → List (String × Json)
  | [] => [(k, v)]
  | (k', v') :: rest => if k' = k then (k, v) :: rest else (k', v') :: setKey k v rest

/-- The object fields of a JSON value; non-objects contribute none
(`doc.as_object_mut()` after the `!doc.is_object()` reset in
`json_patch::merge`). -/
def objFields : Json → List (String × Json)
  | .obj fs => fs
  | _ => []

mutual
/-- `json_patch::merge(doc, patch)` (RFC 7396 merge patch), as the crate
implements it: a non-object patch replaces the document; an object patch
resets a non-object document to an empty object, then for each patch field
a `null` value removes the field and any other value is merged into the
document's existing value for that field (absent fields count as `null`). -/
def merge (doc : Json) (patch : Json) : Json :=
  match patch with
  | .obj pfs => .obj (mergeFields (objFields doc) pfs)
  | p => p

/-- The field loop of `json_patch::merge` over the patch's fields. -/
def mergeFields (base : List (String × Json)) : List (String × Json) → List (String × Json)
  | [] => base
  | (k, v) :: rest =>
    match v with
    | .null => mergeFields (removeKey k base) rest
    | v => mergeFields (setKey k (merge ((lookupKey k base).getD .null) v) base) rest
end

/-- Parameters with which `send_log` builds its `leaky_bucket::RateLimiter`
(main.rs lines 89-94). -/
structure RateLimiterConfig where
  max : Nat
  initial : Nat
  refill : Nat
  intervalMs : Nat
deriving DecidableEq

/-- The rate-limiter configuration `send_log` builds for a category with
rate `rate_limit_per_s` (main.rs lines 89-94).  The refill argument in the
source reads `rate_limit_per_s * 1.01 as usize`; in Rust the cast binds
tighter than the multiplication and the float-to-integer cast truncates,
so `1.01 as usize` is `1` and the refill is `rate_limit_per_s * 1`. -/
def send_log_limiter (rate_limit_per_s : Nat) : RateLimiterConfig :=
  { max := rate_limit_per_s * 100
    initial := 0
    refill := rate_limit_per_s * 1
    intervalMs := 1000 }

/-- The rate gate of `send_log` (main.rs lines 85-94): a rate of zero
returns before any rate limiter is built or any task is spawned; otherwise
the limiter is configured and the generator task goes on to be spawned. -/
def send_log (rate_limit_per_s : Nat) : Option RateLimiterConfig :=
  if rate_limit_per_s = 0 then none
  else some (send_log_limiter rate_limit_per_s)

/-- The common metadata object `needed` built in `send_log`
(main.rs lines 100-105). -/
def needed (hostname : String) : Json :=
  .obj [("ddsource", .str "dynamo"),
        ("hostname", .str hostname),
        ("status", .str "INFO"),
        ("ddtags", .str "kube_namespace:test")]

/-- The array normalization at the top of the generator loop body
(main.rs lines 111-118): a non-array generator value `v` is first wrapped
as `json!([v])`, and the loop then runs over the array's elements. -/
def normalize : Json → List Json
  | .arr xs => xs
  | v => [v]

/-- The assignment `val["timestamp"] = json!(... / 1000)` (main.rs line
122), given the millisecond value.  After `merge` with the object `needed`
the value is always an object, so only the object case arises in the
program; on the remaining cases serde_json's `IndexMut` would panic, which
is modelled as the identity. -/
def setTimestamp (ms : Nat) : Json → Json
  | .obj fs => .obj (setKey "timestamp" (.num (Int.ofNat ms)) fs)
  | v => v

/-- Per-record processing in the generator loop (main.rs lines 119-122):
merge the common metadata into the record, then stamp `timestamp` with the
wall clock read at that point, `Utc::now().timestamp_micros() / 1000`
(truncating division; the clock reads are after the epoch, hence `Nat`). -/
def processRecord (hostname : String) (nowMicros : Nat) (v : Json) : Json :=
  setTimestamp (nowMicros / 1000) (merge v (needed hostname))

/-- The inner `for` loop over one emission's records (main.rs lines
119-129): each record is merged, stamped and sent in order; `closed` says
the channel has been permanently closed (the receiver is gone), in which
case the first send returns `Err` and the `break` abandons the rest of the
emission.  Returns the records successfully sent.  The source reads the
clock once per record; the model reads it once per emission, which no
settled claim distinguishes (the per-record stamping itself is
`processRecord`). -/
def processEmission (hostname : String) (nowMicros : Nat) (closed : Bool) :
    List Json → List Json
  | [] => []
  | v :: rest =>
    if closed then []
    else processRecord hostname nowMicros v ::
      processEmission hostname nowMicros closed rest

/-- The spawned generator loop (main.rs lines 107-131), run for `fuel`
iterations of the outer `loop` starting at invocation index `n`:
`emissions n` is what the `generator` closure returns on its `n`-th call,
`clock n` the epoch-microsecond reading during that iteration.  Each
iteration acquires a token, invokes the generator, normalizes, and runs
the inner send loop.  A failed send `break`s the inner `for` loop only;
the outer `loop` has no exit, so the next iteration acquires, generates
and pushes again.  Returns the number of generator invocations performed
and all records successfully sent. -/
def runTask (hostname : String) (clock : Nat → Nat) (closed : Bool)
    (emissions : Nat → Json) : Nat → Nat → Nat × List Json
  | _, 0 => (0, [])
  | n, fuel+1 =>
    let sent := processEmission hostname (clock n) closed (normalize (emissions n))
    let r := runTask hostname clock closed emissions (n+1) fuel
    (r.1 + 1, sent ++ r.2)

/-- All records a category ever pushes onto the shared channel: none at
all when `send_log` returned without spawning (rate 0), otherwise those
its spawned loop manages to send. -/
def categoryRecords (rate_limit_per_s : Nat) (hostname : String)
    (clock : Nat → Nat) (closed : Bool) (emissions : Nat → Json)
    (fuel : Nat) : List Json :=
  match send_log rate_limit_per_s with
  | none => []
  | some _ => (runTask hostname clock closed emissions 0 fuel).2

/-- Observable startup actions of `main` (main.rs lines 198-237). -/
inductive StartupEvent where
  | resolveHostname : StartupEvent
  | spawnTask (category : Nat) : StartupEvent
deriving DecidableEq

/-- The startup actions of one `send_log` call (main.rs lines 78-131): a
rate of zero does nothing; otherwise the hostname is resolved
(`gethostname()`, main.rs line 99) and then that category's generator
task is spawned (main.rs line 107). -/
def send_log_events (category : Nat) (rate_limit_per_s : Nat) :
    List StartupEvent :=
  if rate_limit_per_s = 0 then []
  else [.resolveHostname, .spawnTask category]

/-- The startup sequence of `main` (main.rs lines 198-237): the five
`send_log` calls run one after the other in source order, the categories
numbered 0 to 4 and `rates` their configured rates (defaults
`[100, 10, 1, 0, 0]`). -/
def mainStartupEvents (rates : List Nat) : List StartupEvent :=
  (rates.enum.map fun p => send_log_events p.1 p.2).flatten

/-- Events the batching consumer reacts to: a record arriving from the
channel at epoch-millisecond `t`, a timer check at `t`, and the permanent
closure of the channel. -/
inductive BatchEvent where
  | arrive (t : Nat) (r : Json) : BatchEvent
  | timer (t : Nat) : BatchEvent
  | close : BatchEvent

/-- Modelled from the spec: the Batcher state (§4.6).  The batching in
`main` (main.rs lines 245-248) is `tokio_stream`'s `chunks_timeout`, an
external crate whose code is not part of this repository, so the
algorithm is modelled from the specification: `items` is the current
batch and `deadline` the flush deadline set when its first record
arrived (meaningful only while `items` is nonempty). -/
structure BatcherState where
  items : List Json
  deadline : Nat

/-- Modelled from the spec: one Batcher transition (§4.6).  A record
arrival appends to the current batch, setting `deadline = now + max_wait`
when it opens a fresh batch, and flushes as soon as the batch reaches
`max_size`; a timer check flushes a non-empty batch whose deadline has
passed; closure flushes any non-empty partial batch.  Returns the next
state and the flushed batch, if any. -/
def batcherStep (max_size max_wait : Nat) (s : BatcherState) :
    BatchEvent → BatcherState × Option (List Json)
  | .arrive t r =>
    let dl := if s.items.isEmpty then t + max_wait else s.deadline
    let items := s.items ++ [r]
    if max_size ≤ items.length then (⟨[], 0⟩, some items)
    else (⟨items, dl⟩, none)
  | .timer t =>
    if s.items.isEmpty then (s, none)
    else if s.deadline ≤ t then (⟨[], 0⟩, some s.items)
    else (s, none)
  | .close => (⟨[], 0⟩, if s.items.isEmpty then none else some s.items)

/-- Modelled from the spec: the Batcher consumer loop (§4.6), folding the
step over an event trace.  Closure flushes any partial batch once and
stops the consumer; later events are never seen. -/
def batcherRun (max_size max_wait : Nat) (s : BatcherState) :
    List BatchEvent → List (List Json)
  | [] => []
  | .close :: _ =>
    match (batcherStep max_size max_wait s .close).2 with
    | some b => [b]
    | none => []
  | .arrive t r :: rest =>
    match batcherStep max_size max_wait s (.arrive t r) with
    | (s2, some b) => b :: batcherRun max_size max_wait s2 rest
    | (s2, none) => batcherRun max_size max_wait s2 rest
  | .timer t :: rest =>
    match batcherStep max_size max_wait s (.timer t) with
    | (s2, some b) => b :: batcherRun max_size max_wait s2 rest
    | (s2, none) => batcherRun max_size max_wait s2 rest

/-- The delivery loop of `main` (main.rs lines 249-262): each batch the
batcher yields is serialized and POSTed exactly once; `Ok` falls through,
`Err` prints the error, and the loop moves to the next batch either way —
no retry and no buffering.  `post` gives each POST's outcome.  Returns,
per batch in order of arrival, the batch and whether its delivery
succeeded. -/
def deliveryLoop (post : List Json → Except String Unit) :
    List (List Json) → List (List Json × Bool)
  | [] => []
  | b :: rest =>
    match post b with
    | .ok _ => (b, true) :: deliveryLoop post rest
    | .error _ => (b, false) :: deliveryLoop post rest

/-- The HTTP-leak category's generator closure (main.rs lines 212-223),
with the two nondeterministic strings it embeds — the Apache access line
(`generate_apache_log_line("POST", 504)`) and the card number
(`fakeit::payment::credit_card_number()`) — as parameters. -/
def leakGenerator (apacheLine cardNumber : String) : Json :=
  .arr [.obj [("message", .str apacheLine),
              ("service", .str "storedog")],
        .obj [("message", .str ("ERROR could not charge card " ++ cardNumber ++ "!")),
              ("service", .str "storedog")]]

/-- Modelled from the spec: a credit-card-shaped numeric string, the
contract of `fakeit::payment::credit_card_number` (an external crate, not
part of this repository): a string of 13 to 19 decimal digits. -/
def cardShaped (s : String) : Prop :=
  13 ≤ s.length ∧ s.length ≤ 19 ∧ s.data.all Char.isDigit = true

instance (s : String) : Decidable (cardShaped s) := by
  unfold cardShaped; infer_instance

/-- The space-joining done by a Rust `format!` string whose placeholders
are separated by single spaces. -/
def joinSpaces : List String → String
  | [] => ""
  | [x] => x
  | x :: y :: rest => x ++ " " ++ joinSpaces (y :: rest)

/-- The fourteen formatted fields of `generate_vpc_flow_line`
(main.rs lines 154-185), in the order of its format string.  The random
draws and clock reads are parameters: the start time is the first
`Utc::now()` (epoch second `nowStart`) minus `startOffset` seconds, with
`startOffset` drawn by `rng.gen_range(5..30)`; the end time `nowEnd` is
the second `Utc::now()`; `client_port` is drawn by
`rng.gen_range(30000..78000)`, `request_bytes` by
`rng.gen_range(230..9000)`, `request_packets` by `rng.gen_range(5..1000)`;
the two IPs come from `fakeit::internet::ipv4_address()`. -/
def generate_vpc_flow_line_fields (action status : String) (port : Nat)
    (nowStart startOffset nowEnd : Int) (client_ip server_ip : String)
    (client_port request_bytes request_packets : Nat) : List String :=
  [toString (2 : Nat),
   "1234567890",
   "eni-sdvu4NphZxGvp1MDz",
   client_ip,
   server_ip,
   toString client_port,
   toString port,
   toString (6 : Nat),
   toString request_packets,
   toString request_bytes,
   toString (nowStart - startOffset),
   toString nowEnd,
   action,
   status]

/-- `generate_vpc_flow_line` (main.rs lines 154-185): the fourteen fields
joined by single spaces, exactly as its `format!` string lays them out. -/
def generate_vpc_flow_line (action status : String) (port : Nat)
    (nowStart startOffset nowEnd : Int) (client_ip server_ip : String)
    (client_port request_bytes request_packets : Nat) : String :=
  joinSpaces (generate_vpc_flow_line_fields action status port
    nowStart startOffset nowEnd client_ip server_ip
    client_port request_bytes request_packets)

/-! Association-list lemmas for object field access. -/

theorem lookupKey_setKey_self (k : String) (v : Json) :
    ∀ fs : List (String × Json), lookupKey k (setKey k v fs) = some v := by
  intro fs
  induction fs with
  | nil => simp [setKey, lookupKey]
  | cons p rest ih =>
    obtain ⟨k2, v2⟩ := p
    by_cases h : k2 = k <;> simp [setKey, lookupKey, h, ih]

theorem lookupKey_setKey_ne (k k2 : String) (v : Json) (hne : k2 ≠ k) :
    ∀ fs : List (String × Json), lookupKey k (setKey k2 v fs) = lookupKey k fs := by
  intro fs
  induction fs with
  | nil => simp [setKey, lookupKey, hne]
  | cons p rest ih =>
    obtain ⟨k3, v3⟩ := p
    by_cases h : k3 = k2
    · subst h
      simp [setKey, lookupKey, hne]
    · by_cases h2 : k3 = k <;> simp [setKey, lookupKey, h, h2, Ne.symm hne, ih]

/-- Merging the concrete four-field metadata patch is four scalar field
updates in sequence. -/
theorem merge_needed (hostname : String) (fs : List (String × Json)) :
    merge (.obj fs) (needed hostname) =
      .obj (setKey "ddtags" (.str "kube_namespace:test")
             (setKey "status" (.str "INFO")
               (setKey "hostname" (.str hostname)
                 (setKey "ddsource" (.str "dynamo") fs)))) := rfl

/-- C1 (counterexample): at configured rate 1, the claim's refill of
`ceil(1.01 * 1) = 2` tokens does not hold — the limiter built by
`send_log` refills 1 token per interval, because Rust's `1.01 as usize`
truncates to 1 before the multiplication. -/
theorem send_log_limiter_rate_one_refutes_ceil :
    ¬ ((send_log_limiter 1).max = 100 * 1 ∧ (send_log_limiter 1).initial = 0 ∧
       (send_log_limiter 1).refill = (101 * 1 + 99) / 100 ∧
       (send_log_limiter 1).intervalMs = 1000) := by
  decide

/-- C1 (amended): for every configured rate `R > 0`, the limiter `send_log`
builds has capacity exactly `100·R`, initial tokens exactly 0, and a
refill of exactly `R` tokens (the source's `* 1.01 as usize` multiplies
by the truncated cast `1`) once per fixed 1000 ms interval. -/
theorem send_log_limiter_config (R : Nat) (h : 0 < R) :
    (send_log_limiter R).max = 100 * R ∧ (send_log_limiter R).initial = 0 ∧
    (send_log_limiter R).refill = R ∧ (send_log_limiter R).intervalMs = 1000 := by
  refine ⟨?_, rfl, ?_, rfl⟩ <;> simp [send_log_limiter, Nat.mul_comm]

theorem send_log_limiter_config_witness :
    0 < 100 ∧
    ((send_log_limiter 100).max = 100 * 100 ∧ (send_log_limiter 100).initial = 0 ∧
     (send_log_limiter 100).refill = 100 ∧ (send_log_limiter 100).intervalMs = 1000) :=
  ⟨by decide, send_log_limiter_config 100 (by decide)⟩

/-- C5: a category configured with rate 0 builds no rate limiter, spawns
no generator task, and never enqueues a record on the shared channel —
`send_log` just returns, an early exit rather than an error. -/
theorem zero_rate_never_spawns_or_enqueues (hostname : String)
    (clock : Nat → Nat) (closed : Bool) (emissions : Nat → Json) (fuel : Nat) :
    send_log 0 = none ∧
    categoryRecords 0 hostname clock closed emissions fuel = [] := by
  constructor <;> simp [send_log, categoryRecords]

/-- C6: the delivery loop POSTs every batch exactly once in arrival
order, whatever the outcomes: a failed POST marks that batch as failed
(dropped, never retried or buffered) and the loop still processes the
rest, so the batch after a failure is assembled and delivered normally. -/
theorem delivery_failure_non_fatal (post : List Json → Except String Unit)
    (batches : List (List Json)) :
    ((deliveryLoop post batches).map Prod.fst = batches) ∧
    (∀ b rest, (deliveryLoop post (b :: rest)).tail = deliveryLoop post rest) := by
  constructor
  · induction batches with
    | nil => rfl
    | cons b rest ih =>
      cases hpb : post b <;> simp [deliveryLoop, hpb, ih]
  · intro b rest
    cases hpb : post b <;> simp [deliveryLoop, hpb]

/-- C2: with the channel permanently closed, the first push of the first
cycle already fails, yet the task still performs a second
acquire-generate-push cycle (two generator invocations for fuel 2, no
record ever sent): the `break` in `send_log`'s spawned loop leaves only
the inner `for` loop, and the outer `loop` has no exit, so the task never
terminates — contradicting the claimed clean task exit. -/
theorem closed_queue_task_keeps_cycling :
    (runTask "h" (fun _ => 0) true (fun _ => Json.null) 0 2).1 = 2 ∧
    (runTask "h" (fun _ => 0) true (fun _ => Json.null) 0 2).2 = [] := by
  constructor <;> rfl

/-- C9: whatever record the producer emitted — including one carrying its
own `timestamp` — after the per-record processing in the generator loop
the `timestamp` field holds the epoch-millisecond value derived from the
wall clock read at merge time (`timestamp_micros() / 1000`), stamped
right after the metadata merge; a production-time value never survives. -/
theorem timestamp_stamped_at_merge (hostname : String) (nowMicros : Nat) (v : Json) :
    lookupKey "timestamp" (objFields (processRecord hostname nowMicros v)) =
      some (.num (Int.ofNat (nowMicros / 1000))) := by
  have hm : merge v (needed hostname) =
      .obj (mergeFields (objFields v)
        [("ddsource", .str "dynamo"), ("hostname", .str hostname),
         ("status", .str "INFO"), ("ddtags", .str "kube_namespace:test")]) := rfl
  rw [processRecord, hm, setTimestamp, objFields, lookupKey_setKey_self]

/-- C3: the metadata merge overwrites each of the four common fields —
`ddsource`, `hostname`, `status`, `ddtags` — with CommonMetadata's value
no matter what the producer put there, and every other field of the
producer's record survives the merge unchanged; through the full
per-record processing the only further field touched is the separately
stamped `timestamp`. -/
theorem merge_overwrites_exactly_common_fields (hostname : String)
    (nowMicros : Nat) (fs : List (String × Json)) (k : String) :
    (lookupKey "ddsource" (objFields (merge (.obj fs) (needed hostname))) =
        some (.str "dynamo") ∧
     lookupKey "hostname" (objFields (merge (.obj fs) (needed hostname))) =
        some (.str hostname) ∧
     lookupKey "status" (objFields (merge (.obj fs) (needed hostname))) =
        some (.str "INFO") ∧
     lookupKey "ddtags" (objFields (merge (.obj fs) (needed hostname))) =
        some (.str "kube_namespace:test")) ∧
    (k ∉ (["ddsource", "hostname", "status", "ddtags"] : List String) →
      lookupKey k (objFields (merge (.obj fs) (needed hostname))) =
        lookupKey k fs) ∧
    (k ∉ (["ddsource", "hostname", "status", "ddtags", "timestamp"] : List String) →
      lookupKey k (objFields (processRecord hostname nowMicros (.obj fs))) =
        lookupKey k fs) := by
  have hmm : ∀ k2, lookupKey k2 (objFields (merge (.obj fs) (needed hostname))) =
      lookupKey k2 (setKey "ddtags" (.str "kube_namespace:test")
        (setKey "status" (.str "INFO")
          (setKey "hostname" (.str hostname)
            (setKey "ddsource" (.str "dynamo") fs)))) := by
    intro k2; rw [merge_needed]; rfl
  have hp : ∀ k2, lookupKey k2 (objFields (processRecord hostname nowMicros (.obj fs))) =
      lookupKey k2 (setKey "timestamp" (.num (Int.ofNat (nowMicros / 1000)))
        (setKey "ddtags" (.str "kube_namespace:test")
          (setKey "status" (.str "INFO")
            (setKey "hostname" (.str hostname)
              (setKey "ddsource" (.str "dynamo") fs))))) := by
    intro k2
    have hm2 : processRecord hostname nowMicros (.obj fs) =
        .obj (setKey "timestamp" (.num (Int.ofNat (nowMicros / 1000)))
          (setKey "ddtags" (.str "kube_namespace:test")
            (setKey "status" (.str "INFO")
              (setKey "hostname" (.str hostname)
                (setKey "ddsource" (.str "dynamo") fs))))) := by
      rw [processRecord, merge_needed, setTimestamp]
    rw [hm2, objFields]
  refine ⟨⟨?_, ?_, ?_, ?_⟩, ?_, ?_⟩
  · rw [hmm, lookupKey_setKey_ne _ _ _ (by decide), lookupKey_setKey_ne _ _ _ (by decide),
      lookupKey_setKey_ne _ _ _ (by decide), lookupKey_setKey_self]
  · rw [hmm, lookupKey_setKey_ne _ _ _ (by decide), lookupKey_setKey_ne _ _ _ (by decide),
      lookupKey_setKey_self]
  · rw [hmm, lookupKey_setKey_ne _ _ _ (by decide), lookupKey_setKey_self]
  · rw [hmm, lookupKey_setKey_self]
  · intro hk
    simp only [List.mem_cons, List.not_mem_nil, or_false, not_or] at hk
    obtain ⟨h1, h2, h3, h4⟩ := hk
    rw [hmm, lookupKey_setKey_ne _ _ _ (Ne.symm h4), lookupKey_setKey_ne _ _ _ (Ne.symm h3),
      lookupKey_setKey_ne _ _ _ (Ne.symm h2), lookupKey_setKey_ne _ _ _ (Ne.symm h1)]
  · intro hk
    simp only [List.mem_cons, List.not_mem_nil, or_false, not_or] at hk
    obtain ⟨h1, h2, h3, h4, h5⟩ := hk
    rw [hp, lookupKey_setKey_ne _ _ _ (Ne.symm h5), lookupKey_setKey_ne _ _ _ (Ne.symm h4),
      lookupKey_setKey_ne _ _ _ (Ne.symm h3), lookupKey_setKey_ne _ _ _ (Ne.symm h2),
      lookupKey_setKey_ne _ _ _ (Ne.symm h1)]

theorem merge_overwrites_exactly_common_fields_witness :
    lookupKey "ddsource" (objFields (merge
        (.obj [("service", .str "storedog"), ("ddsource", .str "spoof")])
        (needed "myhost"))) = some (.str "dynamo") ∧
    lookupKey "service" (objFields (merge
        (.obj [("service", .str "storedog"), ("ddsource", .str "spoof")])
        (needed "myhost"))) =
      lookupKey "service" [("service", .str "storedog"), ("ddsource", .str "spoof")] ∧
    lookupKey "service" (objFields (processRecord "myhost" 1700000000000000
        (.obj [("service", .str "storedog"), ("ddsource", .str "spoof")]))) =
      lookupKey "service" [("service", .str "storedog"), ("ddsource", .str "spoof")] :=
  ⟨(merge_overwrites_exactly_common_fields "myhost" 1700000000000000
      [("service", .str "storedog"), ("ddsource", .str "spoof")] "service").1.1,
   (merge_overwrites_exactly_common_fields "myhost" 1700000000000000
      [("service", .str "storedog"), ("ddsource", .str "spoof")] "service").2.1 (by decide),
   (merge_overwrites_exactly_common_fields "myhost" 1700000000000000
      [("service", .str "storedog"), ("ddsource", .str "spoof")] "service").2.2 (by decide)⟩

/-- C7 (counterexample): with the default rates `[100, 10, 1, 0, 0]` the
startup sequence resolves the hostname three times — once per active
category, inside each `send_log` call — not exactly once, and the second
resolution (index 2) happens after category 0's task was already spawned
(index 1). -/
theorem hostname_not_resolved_once_counterexample :
    (mainStartupEvents [100, 10, 1, 0, 0]).count .resolveHostname = 3 ∧
    (mainStartupEvents [100, 10, 1, 0, 0]).get? 1 = some (.spawnTask 0) ∧
    (mainStartupEvents [100, 10, 1, 0, 0]).get? 2 = some .resolveHostname := by
  decide

theorem startup_events_enumFrom (rates : List Nat) : ∀ n : Nat,
    ((((rates.enumFrom n).map fun p => send_log_events p.1 p.2).flatten).count
        .resolveHostname = (rates.filter (fun r => r != 0)).length) ∧
    ∀ c, StartupEvent.spawnTask c ∈
        ((rates.enumFrom n).map fun p => send_log_events p.1 p.2).flatten →
      ∃ pre post, ((rates.enumFrom n).map fun p => send_log_events p.1 p.2).flatten =
        pre ++ [.resolveHostname, .spawnTask c] ++ post := by
  induction rates with
  | nil =>
    intro n
    refine ⟨rfl, ?_⟩
    intro c hc
    simp [List.enumFrom] at hc
  | cons r rest ih =>
    intro n
    have hstep : ((((r :: rest).enumFrom n).map fun p => send_log_events p.1 p.2).flatten) =
        send_log_events n r ++
          (((rest.enumFrom (n+1)).map fun p => send_log_events p.1 p.2).flatten) := by
      simp [List.enumFrom]
    by_cases hr : r = 0
    · subst hr
      have hz : send_log_events n 0 = [] := rfl
      constructor
      · rw [hstep, hz, List.nil_append]
        simpa using (ih (n+1)).1
      · intro c hc
        rw [hstep, hz, List.nil_append] at hc
        obtain ⟨pre, post, hsplit⟩ := (ih (n+1)).2 c hc
        exact ⟨pre, post, by rw [hstep, hz, List.nil_append, hsplit]⟩
    · have hb : send_log_events n r = [.resolveHostname, .spawnTask n] := by
        simp [send_log_events, hr]
      constructor
      · rw [hstep, hb, List.count_append]
        have hf : (r != 0) = true := by simpa using hr
        rw [List.filter_cons, hf]
        simp [List.count_cons, (ih (n+1)).1, Nat.add_comm]
      · intro c hc
        rw [hstep, hb] at hc
        simp only [List.mem_append, List.mem_cons, List.not_mem_nil, or_false] at hc
        rcases hc with (hc | hc) | hc
        · exact absurd hc (by simp)
        · have hcn : c = n := by injection hc
          subst hcn
          refine ⟨[], (((rest.enumFrom (c+1)).map fun p => send_log_events p.1 p.2).flatten),
            ?_⟩
          rw [hstep, hb]
          simp
        · obtain ⟨pre, post, hsplit⟩ := (ih (n+1)).2 c hc
          refine ⟨send_log_events n r ++ pre, post, ?_⟩
          rw [hstep, hsplit]
          simp

/-- C7 (amended): the hostname is resolved once per active (non-zero
rate) category — inside that category's `send_log` call, immediately
before its task is spawned — rather than exactly once before any task:
every task does start with an identity resolved for it, and a resolution
failure aborts the process at that point, but with two or more active
categories later resolutions happen after earlier categories' tasks have
already started, and there is no single shared CommonMetadata. -/
theorem hostname_resolved_once_per_active_category (rates : List Nat) :
    ((mainStartupEvents rates).count .resolveHostname =
      (rates.filter (fun r => r != 0)).length) ∧
    ∀ c, StartupEvent.spawnTask c ∈ mainStartupEvents rates →
      ∃ pre post, mainStartupEvents rates =
        pre ++ [.resolveHostname, .spawnTask c] ++ post :=
  startup_events_enumFrom rates 0

theorem hostname_resolved_once_per_active_category_witness :
    ((mainStartupEvents [100, 10, 1, 0, 0]).count .resolveHostname =
      (([100, 10, 1, 0, 0] : List Nat).filter (fun r => r != 0)).length) ∧
    ∃ pre post, mainStartupEvents [100, 10, 1, 0, 0] =
      pre ++ [.resolveHostname, .spawnTask 1] ++ post :=
  ⟨(hostname_resolved_once_per_active_category [100, 10, 1, 0, 0]).1,
   (hostname_resolved_once_per_active_category [100, 10, 1, 0, 0]).2 1 (by decide)⟩

/-- Size invariant of the batching consumer: from a state whose open
batch is still below `max_size`, every batch ever flushed has at most
`max_size` records. -/
theorem batcherRun_length_le (max_size max_wait : Nat) :
    ∀ (events : List BatchEvent) (s : BatcherState),
      s.items.length < max_size →
      ∀ b ∈ batcherRun max_size max_wait s events, b.length ≤ max_size := by
  intro events
  induction events with
  | nil =>
    intro s hs b hb
    simp [batcherRun] at hb
  | cons e rest ih =>
    intro s hs b hb
    cases e with
    | arrive t r =>
      by_cases hfull : max_size ≤ (s.items ++ [r]).length
      · simp only [batcherRun, batcherStep, if_pos hfull, List.mem_cons] at hb
        rcases hb with rfl | hb
        · simpa using Nat.succ_le_of_lt hs
        · exact ih ⟨[], 0⟩ (by simpa using Nat.lt_of_le_of_lt (Nat.zero_le _) hs) b hb
      · simp only [batcherRun, batcherStep, if_neg hfull] at hb
        exact ih _ (by simpa using Nat.lt_of_not_le hfull) b hb
    | timer t =>
      by_cases hemp : s.items.isEmpty
      · simp only [batcherRun, batcherStep, if_pos hemp] at hb
        exact ih s hs b hb
      · by_cases hdl : s.deadline ≤ t
        · simp only [batcherRun, batcherStep, if_neg hemp, if_pos hdl, List.mem_cons] at hb
          rcases hb with rfl | hb
          · exact Nat.le_of_lt hs
          · exact ih ⟨[], 0⟩ (by simpa using Nat.lt_of_le_of_lt (Nat.zero_le _) hs) b hb
        · simp only [batcherRun, batcherStep, if_neg hemp, if_neg hdl] at hb
          exact ih s hs b hb
    | close =>
      by_cases hemp : s.items.isEmpty
      · simp only [batcherRun, batcherStep, if_pos hemp] at hb
        simp at hb
      · simp only [batcherRun, batcherStep, if_neg hemp, List.mem_singleton] at hb
        subst hb
        exact Nat.le_of_lt hs

/-- C4: with `max_size ≥ 1`, starting from an empty batch: (i) every
batch the consumer ever flushes holds at most `max_size` records;
(ii) a step flushes exactly when an arrival fills the open batch to
`max_size`, or a timer check finds a non-empty batch at or past its
deadline, or closure finds a non-empty partial batch — and never
otherwise; (iii) closure flushes the non-empty partial batch once and
stops the consumer (later events are never processed). -/
theorem batch_flush_law (max_size max_wait : Nat) (hmax : 1 ≤ max_size)
    (events : List BatchEvent) :
    (∀ b ∈ batcherRun max_size max_wait ⟨[], 0⟩ events, b.length ≤ max_size) ∧
    (∀ (s : BatcherState) (e : BatchEvent),
      ((batcherStep max_size max_wait s e).2).isSome = true ↔
        (match e with
         | .arrive _ _ => max_size ≤ s.items.length + 1
         | .timer t => s.items ≠ [] ∧ s.deadline ≤ t
         | .close => s.items ≠ [])) ∧
    (∀ (s : BatcherState) (rest : List BatchEvent),
      batcherRun max_size max_wait s (.close :: rest) =
        if s.items.isEmpty then [] else [s.items]) := by
  refine ⟨batcherRun_length_le max_size max_wait events ⟨[], 0⟩ (by simpa using hmax), ?_, ?_⟩
  · intro s e
    cases e with
    | arrive t r =>
      by_cases hfull : max_size ≤ (s.items ++ [r]).length
      · simp only [batcherStep, if_pos hfull]
        simpa using hfull
      · simp only [batcherStep, if_neg hfull]
        simpa using hfull
    | timer t =>
      by_cases hemp : s.items.isEmpty
      · simp only [batcherStep, if_pos hemp]
        simp [List.isEmpty_iff.mp hemp]
      · by_cases hdl : s.deadline ≤ t
        · simp only [batcherStep, if_neg hemp, if_pos hdl]
          simp only [Option.isSome_some, true_iff]
          exact ⟨fun hnil => hemp (by simp [hnil]), hdl⟩
        · simp only [batcherStep, if_neg hemp, if_neg hdl]
          simp only [Option.isSome_none, Bool.false_eq_true, false_iff, not_and]
          intro _
          exact hdl
    | close =>
      by_cases hemp : s.items.isEmpty
      · simp only [batcherStep, if_pos hemp]
        simp [List.isEmpty_iff.mp hemp]
      · simp only [batcherStep, if_neg hemp]
        simp only [Option.isSome_some, true_iff]
        exact fun hnil => hemp (by simp [hnil])
  · intro s rest
    by_cases hemp : s.items.isEmpty
    · simp [batcherRun, batcherStep, hemp]
    · simp [batcherRun, batcherStep, hemp]

theorem batch_flush_law_witness :
    1 ≤ 5 ∧
    (∀ b ∈ batcherRun 5 5000 ⟨[], 0⟩
        [BatchEvent.arrive 0 .null, BatchEvent.close], b.length ≤ 5) :=
  ⟨by decide,
   (batch_flush_law 5 5000 (by decide) [BatchEvent.arrive 0 .null, BatchEvent.close]).1⟩

/-- C8: every invocation of the HTTP-leak category's generator yields,
after the loop's array normalization, exactly two records; both carry
`service = "storedog"`, and the second record's message embeds the
credit-card-shaped numeric string (the `fakeit` card number) as a
contiguous substring. -/
theorem leak_pair (apacheLine cardNumber : String) (h : cardShaped cardNumber) :
    (normalize (leakGenerator apacheLine cardNumber)).length = 2 ∧
    (∀ r ∈ normalize (leakGenerator apacheLine cardNumber),
      lookupKey "service" (objFields r) = some (.str "storedog")) ∧
    ∃ msg : String,
      lookupKey "message"
        (objFields ((normalize (leakGenerator apacheLine cardNumber)).getD 1 .null)) =
          some (.str msg) ∧
      List.IsInfix cardNumber.data msg.data ∧ cardShaped cardNumber := by
  refine ⟨rfl, ?_, "ERROR could not charge card " ++ cardNumber ++ "!", rfl, ?_, h⟩
  · intro r hr
    simp only [normalize, leakGenerator, List.mem_cons, List.not_mem_nil, or_false] at hr
    rcases hr with rfl | rfl <;> rfl
  · exact ⟨"ERROR could not charge card ".data, "!".data, by
      simp [String.data_append]⟩

theorem leak_pair_witness :
    cardShaped "4111111111111111" ∧
    (normalize (leakGenerator "10.0.0.1 - u [x] \x22POST /x HTTP/1.1\x22 504 1024"
        "4111111111111111")).length = 2 :=
  ⟨by decide,
   (leak_pair "10.0.0.1 - u [x] \x22POST /x HTTP/1.1\x22 504 1024" "4111111111111111"
     (by decide)).1⟩

/-! Space-freeness of decimal representations, for splitting the flow
line back into its fields. -/

theorem digitChar_ne_space (n : Nat) : Nat.digitChar n ≠ ' ' := by
  rcases Nat.lt_or_ge n 16 with hlt | hge
  · interval_cases n <;> decide
  · have hne : ∀ k : Nat, k < 16 → ¬ n = k := fun k hk => by omega
    unfold Nat.digitChar
    rw [if_neg (hne 0 (by norm_num)), if_neg (hne 1 (by norm_num)),
      if_neg (hne 2 (by norm_num)), if_neg (hne 3 (by norm_num)),
      if_neg (hne 4 (by norm_num)), if_neg (hne 5 (by norm_num)),
      if_neg (hne 6 (by norm_num)), if_neg (hne 7 (by norm_num)),
      if_neg (hne 8 (by norm_num)), if_neg (hne 9 (by norm_num)),
      if_neg (hne 10 (by norm_num)), if_neg (hne 11 (by norm_num)),
      if_neg (hne 12 (by norm_num)), if_neg (hne 13 (by norm_num)),
      if_neg (hne 14 (by norm_num)), if_neg (hne 15 (by norm_num))]
    decide

theorem toDigitsCore_ne_space (fuel : Nat) :
    ∀ (n : Nat) (acc : List Char), (∀ c ∈ acc, c ≠ ' ') →
      ∀ c ∈ Nat.toDigitsCore 10 fuel n acc, c ≠ ' ' := by
  induction fuel with
  | zero =>
    intro n acc hacc c hc
    exact hacc c hc
  | succ fuel ih =>
    intro n acc hacc c hc
    simp only [Nat.toDigitsCore] at hc
    split at hc
    · rcases List.mem_cons.mp hc with rfl | hmem
      · exact digitChar_ne_space _
      · exact hacc c hmem
    · refine ih _ _ ?_ c hc
      intro c2 hc2
      rcases List.mem_cons.mp hc2 with rfl | hm
      · exact digitChar_ne_space _
      · exact hacc c2 hm

theorem toString_nat_space_free (n : Nat) : ' ' ∉ (toString n).data := by
  intro hmem
  have hdig : (toString n).data = Nat.toDigitsCore 10 (n+1) n [] := rfl
  rw [hdig] at hmem
  exact toDigitsCore_ne_space (n+1) n [] (by intro c hc; simp at hc) ' ' hmem rfl

theorem toString_int_space_free (i : Int) : ' ' ∉ (toString i).data := by
  cases i with
  | ofNat m => exact toString_nat_space_free m
  | negSucc m =>
    intro hmem
    have hneg : (toString (Int.negSucc m)).data = "-".data ++ (toString (m+1)).data := by
      have : toString (Int.negSucc m) = "-" ++ toString (m+1) := rfl
      rw [this, String.data_append]
    rw [hneg] at hmem
    rcases List.mem_append.mp hmem with hm | hm
    · simp at hm
    · exact toString_nat_space_free (m+1) hm

/-- `joinSpaces` is character-level intercalation with a single space. -/
theorem joinSpaces_data : ∀ l : List String,
    (joinSpaces l).data = List.intercalate [' '] (l.map String.data)
  | [] => by simp [joinSpaces, List.intercalate]
  | [x] => by simp [joinSpaces, List.intercalate, List.intersperse]
  | x :: y :: rest => by
    have ih := joinSpaces_data (y :: rest)
    simp only [joinSpaces, String.data_append, ih, List.map_cons, List.intercalate,
      List.intersperse_cons_cons, List.flatten_cons, List.append_assoc]

/-- C10: for every draw the code can make — `startOffset` by
`gen_range(5..30)` so the start lies 5 to 30 (exclusive) seconds before
the first clock read, `client_port` by `gen_range(30000..78000)` (a range
reaching beyond 65535, the largest valid TCP/UDP port), `request_bytes`
by `gen_range(230..9000)`, `request_packets` by `gen_range(5..1000)` —
with the second clock read at or after the first and space-free
IP/action/status strings, the flow line splits on spaces into exactly its
fourteen fields in the fixed format-string order, and the start epoch
second is strictly less than the end epoch second. -/
theorem vpc_flow_line_fields_and_times (action status : String) (port : Nat)
    (nowStart startOffset nowEnd : Int) (client_ip server_ip : String)
    (client_port request_bytes request_packets : Nat)
    (hoff : 5 ≤ startOffset ∧ startOffset < 30)
    (hport : 30000 ≤ client_port ∧ client_port < 78000)
    (hbytes : 230 ≤ request_bytes ∧ request_bytes < 9000)
    (hpackets : 5 ≤ request_packets ∧ request_packets < 1000)
    (hnow : nowStart ≤ nowEnd)
    (hip1 : ' ' ∉ client_ip.data) (hip2 : ' ' ∉ server_ip.data)
    (hact : ' ' ∉ action.data) (hst : ' ' ∉ status.data) :
    ((generate_vpc_flow_line action status port nowStart startOffset nowEnd
        client_ip server_ip client_port request_bytes request_packets).data.splitOn ' ' =
      (generate_vpc_flow_line_fields action status port nowStart startOffset nowEnd
        client_ip server_ip client_port request_bytes request_packets).map String.data) ∧
    ((generate_vpc_flow_line action status port nowStart startOffset nowEnd
        client_ip server_ip client_port request_bytes
        request_packets).data.splitOn ' ').length = 14 ∧
    nowStart - startOffset < nowEnd := by
  have hsplit : (generate_vpc_flow_line action status port nowStart startOffset nowEnd
      client_ip server_ip client_port request_bytes request_packets).data.splitOn ' ' =
      (generate_vpc_flow_line_fields action status port nowStart startOffset nowEnd
        client_ip server_ip client_port request_bytes request_packets).map String.data := by
    rw [generate_vpc_flow_line, joinSpaces_data]
    refine List.splitOn_intercalate _ ' ' ?_ (by simp [generate_vpc_flow_line_fields])
    intro l hl
    simp only [generate_vpc_flow_line_fields, List.map_cons, List.map_nil, List.mem_cons,
      List.not_mem_nil, or_false] at hl
    rcases hl with rfl | rfl | rfl | rfl | rfl | rfl | rfl | rfl | rfl | rfl | rfl | rfl |
      rfl | rfl
    · exact toString_nat_space_free 2
    · decide
    · decide
    · exact hip1
    · exact hip2
    · exact toString_nat_space_free client_port
    · exact toString_nat_space_free port
    · exact toString_nat_space_free 6
    · exact toString_nat_space_free request_packets
    · exact toString_nat_space_free request_bytes
    · exact toString_int_space_free (nowStart - startOffset)
    · exact toString_int_space_free nowEnd
    · exact hact
    · exact hst
  refine ⟨hsplit, ?_, ?_⟩
  · rw [hsplit]
    simp [generate_vpc_flow_line_fields]
  · omega

theorem vpc_flow_line_fields_and_times_witness :
    (30000 ≤ 70000 ∧ 70000 < 78000 ∧ 65535 < 70000) ∧
    ((generate_vpc_flow_line "ACCEPT" "OK" 443 1700000000 10 1700000001
        "10.1.2.3" "10.4.5.6" 70000 500 50).data.splitOn ' ').length = 14 ∧
    (1700000000 : Int) - 10 < 1700000001 :=
  ⟨by decide,
   (vpc_flow_line_fields_and_times "ACCEPT" "OK" 443 1700000000 10 1700000001
      "10.1.2.3" "10.4.5.6" 70000 500 50
      (by decide) (by decide) (by decide) (by decide) (by decide)
      (by decide) (by decide) (by decide) (by decide)).2⟩

end Dynamo
